/-
Verification of the catalog API server (src/src/catalog_api) against its
natural-language specification.

The development is a shallow embedding: the Python functions of the
repository are translated into executable Lean definitions (wall-clock
times and Python floats become rationals, dicts become first-match
association lists, sets become duplicate-free lists, sqlite tables become
lists of rows queried in order, and the network becomes an explicit
oracle of responses).  The theorems below settle the frozen claims about
the program.
-/
import Mathlib

namespace CatalogAPI

/-! ## Token bucket (`_TokenBucket`, app.py lines 14-37)

`_TokenBucket.__init__` stores `rate`, `capacity` (defaulting to `rate`),
`tokens := capacity` and the last-refill time `t`.  `acquire` refills from
elapsed wall time, clamped at `capacity`, and deducts `n` when enough
tokens are available; otherwise it sleeps and retries, which is a new
refill-and-try step at a later `now`. -/

structure TokenBucket where
  rate : ℚ
  capacity : ℚ
  tokens : ℚ
  t : ℚ
  deriving Repr, DecidableEq

/-- Embeds `_TokenBucket(rate, capacity)`: `tokens` starts at `capacity`,
last-refill time at `t0` (the construction time). -/
def TokenBucket.mk0 (rate : ℚ) (capacity : Option ℚ) (t0 : ℚ) : TokenBucket :=
  let c := capacity.getD rate
  { rate := rate, capacity := c, tokens := c, t := t0 }

/-- One iteration of the loop in `_TokenBucket.acquire`: refill from the
elapsed time (only when `dt > 0`), clamp at `capacity`, and deduct `n`
when `tokens >= n`.  Returns the new bucket state and whether the
acquisition succeeded on this iteration.  (The Python loop sleeps and
re-runs this step until it succeeds; `rate <= 0` returns immediately
without touching the state.) -/
def TokenBucket.acquireStep (b : TokenBucket) (now : ℚ) (n : ℚ) :
    TokenBucket × Bool :=
  if b.rate ≤ 0 then (b, true)
  else
    let dt := now - b.t
    let b' := if 0 < dt then
        { b with tokens := min b.capacity (b.tokens + dt * b.rate), t := now }
      else b
    if n ≤ b'.tokens then ({ b' with tokens := b'.tokens - n }, true)
    else (b', false)

/-- A sequence of acquire-loop iterations, each with its own wall-clock
time and requested token count. -/
def TokenBucket.runAcquires (b : TokenBucket) (ops : List (ℚ × ℚ)) :
    TokenBucket :=
  ops.foldl (fun st op => (st.acquireStep op.1 op.2).1) b

/-- The implicit state invariant claimed for the bucket. -/
def TokenBucket.inv (b : TokenBucket) : Prop :=
  0 ≤ b.tokens ∧ b.tokens ≤ b.capacity

instance (b : TokenBucket) : Decidable b.inv := by
  unfold TokenBucket.inv; infer_instance

/-! ## Foreground/background bucket split (`App.__init__`, app.py 70-76)

```
self.tmdb_rps = float(os.environ.get("TMDB_RPS") or "47")
fg_cfg = float(os.environ.get("TMDB_RPS_FOREGROUND") or 7.0)
fg = min(fg_cfg, self.tmdb_rps - 1) if self.tmdb_rps > 1 else self.tmdb_rps
bg = max(0.0, self.tmdb_rps - fg)
self.tmdb_fg_limiter = _TokenBucket(fg, capacity=max(1.0, fg))
self.tmdb_bg_limiter = _TokenBucket(bg, capacity=max(1.0, bg)) if bg > 0 else None
```
-/

/-- The foreground rate computed by `App.__init__`. -/
def fgRate (tmdbRps fgCfg : ℚ) : ℚ :=
  if 1 < tmdbRps then min fgCfg (tmdbRps - 1) else tmdbRps

/-- The background rate computed by `App.__init__`. -/
def bgRate (tmdbRps fgCfg : ℚ) : ℚ :=
  max 0 (tmdbRps - fgRate tmdbRps fgCfg)

/-- The two limiters built by `App.__init__`: the foreground bucket, and
the background bucket which exists only when `bg > 0`. -/
def initLimiters (tmdbRps fgCfg t0 : ℚ) :
    TokenBucket × Option TokenBucket :=
  let fg := fgRate tmdbRps fgCfg
  let bg := bgRate tmdbRps fgCfg
  ( TokenBucket.mk0 fg (some (max 1 fg)) t0,
    if 0 < bg then some (TokenBucket.mk0 bg (some (max 1 bg)) t0) else none )

/-! ## Backfill scheduler (`App._schedule_backfill`, app.py 230-243)

State: `backfill_recent : dict key -> float` and `backfill_inflight :
set key`, both guarded by one lock.  Key is
`(media_type, tid, lang_tag, 1 if full else 0)`. -/

/-- Embeds `_lang_tag(iso639, iso3166)` (lang.py 29-30). -/
def langTag (iso639 : String) (iso3166 : Option String) : String :=
  match iso3166 with
  | some r => iso639 ++ "-" ++ r
  | none => iso639

abbrev BackfillKey := String × ℤ × String × ℕ

structure BackfillState where
  recent : List (BackfillKey × ℚ)
  inflight : List BackfillKey
  deriving Repr, DecidableEq

/-- Default `BACKFILL_TTL` seconds (`backfill_ttl_s = 10 * 60`). -/
def backfillTtl : ℚ := 10 * 60

/-- Default `BACKFILL_QUEUE_LIMIT`. -/
def backfillQueueLimit : ℕ := 2000

/-- The synchronous part of `App._schedule_backfill`: guard clauses, the
recency check, the `recent[k] = now` write, and the inflight
check/insert.  Returns the new state and whether a task was submitted to
the worker pool.  (`tmdbKey` is `self.tmdb_key`; a Python float
timestamp `t0` is truthy iff nonzero, hence the `t0 ≠ 0` conjunct.) -/
def scheduleBackfill (tmdbKey : String) (mediaType : String) (tid : ℤ)
    (iso639 : String) (iso3166 : Option String) (full : Bool)
    (st : BackfillState) (now : ℚ) : BackfillState × Bool :=
  if tmdbKey = "" ∨ (mediaType ≠ "movie" ∧ mediaType ≠ "tv") ∨ tid ≤ 0 then
    (st, false)
  else
    let k : BackfillKey :=
      (mediaType, tid, langTag iso639 iso3166, if full then 1 else 0)
    match st.recent.lookup k with
    | some t0 =>
      if t0 ≠ 0 ∧ now - t0 < backfillTtl then (st, false)
      else
        let st' := { st with recent := (k, now) :: st.recent }
        if backfillQueueLimit ≤ st'.inflight.length ∨ k ∈ st'.inflight then
          (st', false)
        else ({ st' with inflight := k :: st'.inflight }, true)
    | none =>
      let st' := { st with recent := (k, now) :: st.recent }
      if backfillQueueLimit ≤ st'.inflight.length ∨ k ∈ st'.inflight then
        (st', false)
      else ({ st' with inflight := k :: st'.inflight }, true)

/-! ## Python string primitives

The Lean core `String` functions are not kernel-reducible, so the Python
string operations used by the repository (`strip`, `lower`, `upper`,
`replace`, `split(sep, 1)`, slicing) are embedded structurally over
`List Char` and wrapped back into `String`. -/

/-- Embeds `str.strip()` (whitespace at both ends). -/
def pyStrip (s : String) : String :=
  ⟨((s.data.dropWhile Char.isWhitespace).reverse.dropWhile
      Char.isWhitespace).reverse⟩

/-- Embeds `str.lower()` (ASCII case folding, which covers language tags). -/
def pyLower (s : String) : String := ⟨s.data.map Char.toLower⟩

/-- Embeds `str.upper()`. -/
def pyUpper (s : String) : String := ⟨s.data.map Char.toUpper⟩

/-- Embeds `str.replace(old, new)` for single-character old/new. -/
def pyReplaceChar (s : String) (a b : Char) : String :=
  ⟨s.data.map (fun c => if c = a then b else c)⟩

/-- The part of `s` before the first `c`, i.e. `s.split(c, 1)[0]`. -/
def pyBeforeChar (c : Char) (s : String) : String :=
  ⟨s.data.takeWhile (· ≠ c)⟩

/-- Embeds `s.split(c, 1)`: the part before the first `c`, and — when `c`
occurs — the rest after it. -/
def pySplitFirst (c : Char) : List Char → List Char × Option (List Char)
  | [] => ([], none)
  | x :: xs =>
    if x = c then ([], some xs)
    else
      let r := pySplitFirst c xs
      (x :: r.1, r.2)

/-- Python `a or b` on strings (empty string is falsy). -/
def pyOrStr (a : Option String) (b : String) : String :=
  match a with
  | some s => if s = "" then b else s
  | none => b

/-- Python `a or b` where both sides are optional strings. -/
def pyOrOpt (a b : Option String) : Option String :=
  match a with
  | some s => if s = "" then b else some s
  | none => b

/-- Digit-string to number (`int` on a non-empty all-digit string). -/
def digitsVal (l : List Char) : Option ℕ :=
  if l = [] then none
  else if l.all Char.isDigit then
    some (l.foldl (fun a c => a * 10 + (c.toNat - 48)) 0)
  else none

/-- Python `int(s)`: optional surrounding whitespace, optional sign,
then decimal digits; anything else raises (modelled as `none`). -/
def pyInt (s : String) : Option ℤ :=
  match (pyStrip s).data with
  | '-' :: rest => (digitsVal rest).map (fun n => -(n : ℤ))
  | '+' :: rest => (digitsVal rest).map (fun n => (n : ℤ))
  | rest => (digitsVal rest).map (fun n => (n : ℤ))

/-! ## Locale resolver (lang.py) -/

/-- Embeds `_split_lang(s)` (lang.py 1-11): strip, map `_` to `-`, split on the
first `-`; language lower-cased (defaulting to `"en"` when the part is
empty), region upper-cased (dropped when empty). -/
def splitLang (s : String) : String × Option String :=
  let s1 := pyStrip s
  if s1 = "" then ("en", none)
  else
    let s2 := pyReplaceChar s1 '_' '-'
    match pySplitFirst '-' s2.data with
    | (a0, some b0) =>
      let a := pyLower (pyStrip ⟨a0⟩)
      let a := if a = "" then "en" else a
      let b := pyUpper (pyStrip ⟨b0⟩)
      (a, if b = "" then none else some b)
    | (_, none) => (pyLower s2, none)

/-- Embeds `_accept_lang(header_val)` (lang.py 14-19): first comma-separated
tag, q-factor stripped, then `_split_lang`.  A missing or empty header
yields the default. -/
def acceptLang (headerVal : Option String) : String × Option String :=
  match headerVal with
  | none => ("en", none)
  | some hv =>
    if hv = "" then ("en", none)
    else
      let first := pyStrip (pyBeforeChar ',' hv)
      let tag := pyStrip (pyBeforeChar ';' first)
      splitLang tag

/-- Embeds `_pick_lang(qs, accept_language)` (lang.py 22-26).  `qsLang` is
`qs.get("lang")`: the list of values of the `lang` query parameter, or
`none` when the key is absent (an empty list is falsy in Python and
behaves like an absent key). -/
def pickLang (qsLang : Option (List String)) (acceptLanguage : Option String) :
    String × Option String :=
  let vs := match qsLang with
    | none => [""]
    | some [] => [""]
    | some l => l
  let v := pyStrip (vs.headD "")
  if v ≠ "" then splitLang v else acceptLang acceptLanguage

/-! ## util.py: `_year`, `_pick_logo`, description truncation -/

/-- Embeds `_year(d)` (util.py 4-10): `None` when the string is missing or
shorter than 4 characters, else `int(d[:4])` with failures mapped to
`None`. -/
def yearOf (d : Option String) : Option ℤ :=
  match d with
  | none => none
  | some s =>
    if s.data.length < 4 then none
    else pyInt ⟨s.data.take 4⟩

/-- Embeds `_pick_logo(logos_json, lang)` (util.py 22-35) over the parsed
logos map: `logos` is the result of `_json_loads_best_effort` restricted
to dicts (`none` covers a missing column, a parse failure and a
non-dict value).  Keys are tried in order `lang`, `"en"`, `"und"`, then
the first truthy value in insertion order. -/
def pickLogo (logos : Option (List (String × String))) (lang : String) :
    Option String :=
  match logos with
  | none => none
  | some d =>
    let get := fun (k : String) =>
      match d.lookup k with
      | some v => if v = "" then none else some v
      | none => none
    match get lang with
    | some v => some v
    | none =>
      match get "en" with
      | some v => some v
      | none =>
        match get "und" with
        | some v => some v
        | none => (d.map Prod.snd).find? (fun v => v ≠ "")

/-- The description truncation used by every card builder:
`(s[:240] + "…") if len(s) > 240 else (s or None)`. -/
def truncDesc (s : String) : Option String :=
  if 240 < s.data.length then some ⟨s.data.take 240 ++ ['…']⟩
  else if s = "" then none else some s

/-! ## Translation lookup (`App._translated`, app.py 631-657)

The `title_translations` table is a list of rows; a `SELECT ... LIMIT 1`
without `ORDER BY` is modelled as the first matching row in table
order. -/

structure TransRow where
  mediaType : String
  tmdbId : ℤ
  iso639 : String
  iso3166 : String
  title : Option String
  overview : Option String
  deriving Repr, DecidableEq

/-- Embeds `App._translated`: with a (truthy) region, first try the exact
`(lang, region)` row; on miss — or with no region — take the first row
matching the language alone; else `(None, None)`. -/
def translated (hasTranslations : Bool) (tbl : List TransRow)
    (mediaType : String) (tid : ℤ) (iso639 : String)
    (iso3166 : Option String) : Option String × Option String :=
  if !hasTranslations then (none, none)
  else
    let langOnly :=
      match tbl.find? (fun r =>
          r.mediaType = mediaType ∧ r.tmdbId = tid ∧ r.iso639 = iso639) with
      | some r => (r.title, r.overview)
      | none => (none, none)
    match iso3166 with
    | some r3 =>
      if r3 = "" then langOnly
      else
        match tbl.find? (fun r =>
            r.mediaType = mediaType ∧ r.tmdbId = tid ∧ r.iso639 = iso639 ∧
              r.iso3166 = r3) with
        | some r => (r.title, r.overview)
        | none => langOnly
    | none => langOnly

/-! ## Cards as Python dicts

A card is a Python dict built with a literal (fixed key order) and then
possibly mutated by `_enrich_card`.  It is embedded as an association
list in insertion order: updating an existing key keeps its position,
assigning a fresh key appends it. -/

inductive JVal where
  | null
  | str (s : String)
  | int (n : ℤ)
  | num (q : ℚ)
  | bool (b : Bool)
  deriving Repr, DecidableEq

/-- Python truthiness of the values cards carry. -/
def JVal.truthy : JVal → Bool
  | .null => false
  | .str s => s ≠ ""
  | .int n => n ≠ 0
  | .num q => q ≠ 0
  | .bool b => b

abbrev Card := List (String × JVal)

/-- Embeds `card.get(k)`. -/
def dget (c : Card) (k : String) : Option JVal := c.lookup k

/-- Embeds `card[k] = v`: replace in place when present, append when absent. -/
def dset (c : Card) (k : String) (v : JVal) : Card :=
  if (c.lookup k).isSome then
    c.map (fun p => if p.1 = k then (k, v) else p)
  else c ++ [(k, v)]

/-- The key list of a card dict. -/
def dkeys (c : Card) : List String := c.map Prod.fst

def jOptStr : Option String → JVal
  | none => .null
  | some s => .str s

def jOptInt : Option ℤ → JVal
  | none => .null
  | some n => .int n

def jOptNum : Option ℚ → JVal
  | none => .null
  | some q => .num q

/-- Embeds `int(card.get("id") or 0)` for the values our cards hold. -/
def jToInt : Option JVal → ℤ
  | some (.int n) => n
  | _ => 0

/-- Embeds `card.get(k) or ""` read as a string (card string fields are
`.null` or `.str`). -/
def jStrOrEmpty : Option JVal → String
  | some (.str s) => s
  | _ => ""

/-- The nine keys of the uniform card shape, in construction order. -/
def cardKeys9 : List String :=
  ["id", "kind", "name", "description", "year", "rating", "poster", "logo",
    "backdrop"]

/-- The keys of cards built without a description. -/
def cardKeys8 : List String :=
  ["id", "kind", "name", "year", "rating", "poster", "logo", "backdrop"]

/-! ## Card builders

`App._card_from_row` (app.py 659-703) reads a row dict of the `movies`
or `series` table; the movie and series branches are textually identical
up to the column names `title`/`release_date` versus
`name`/`first_air_date`, which the row embedding merges into
`nameOrTitle`/`dateVal`.  `hasCon` is `"_con" in r.keys()`. -/

structure TitleRow where
  id : ℤ
  nameOrTitle : Option String
  overview : Option String
  dateVal : Option String
  voteAverage : Option ℚ
  posterPath : Option String
  backdropPath : Option String
  logosJson : Option (List (String × String))
  deriving Repr, DecidableEq

def cardFromRow (hasTranslations : Bool) (transTbl : List TransRow)
    (hasCon : Bool) (mediaType : String) (r : TitleRow) (iso639 : String)
    (iso3166 : Option String) (withDescription : Bool) : Card :=
  let kind := if mediaType = "movie" then "movie" else "series"
  let t := if hasCon then
      translated hasTranslations transTbl mediaType r.id iso639 iso3166
    else (none, none)
  let title := pyStrip (pyOrStr t.1 (pyOrStr r.nameOrTitle ""))
  let description :=
    if withDescription then
      truncDesc (pyStrip (pyOrStr t.2 (pyOrStr r.overview "")))
    else none
  let poster := r.posterPath
  let logo := pyOrOpt (pickLogo r.logosJson iso639) poster
  [("id", .int r.id), ("kind", .str kind), ("name", .str title),
    ("description", jOptStr description), ("year", jOptInt (yearOf r.dateVal)),
    ("rating", jOptNum r.voteAverage), ("poster", jOptStr poster),
    ("logo", jOptStr logo), ("backdrop", jOptStr r.backdropPath)]

/-- A trending-feed item as the home assembler reads it
(`tmdb_card`, server.py 354-384). -/
structure TrendingItem where
  mediaType : Option String
  id : Option ℤ
  title : Option String
  name : Option String
  overview : Option String
  releaseDate : Option String
  firstAirDate : Option String
  voteAverage : Option ℚ
  posterPath : Option String
  backdropPath : Option String
  deriving Repr, DecidableEq

/-- Embeds `tmdb_card(it)`: `None` unless `media_type` normalises to
`"movie"` or `"tv"`. -/
def tmdbCard (it : TrendingItem) : Option Card :=
  let mt := pyLower (pyStrip (it.mediaType.getD ""))
  if mt = "movie" then
    let tid := it.id.getD 0
    let d := pyStrip (it.overview.getD "")
    some [("id", .int tid), ("kind", .str "movie"),
      ("name", .str (pyStrip (it.title.getD ""))),
      ("description", jOptStr (truncDesc d)),
      ("year", jOptInt (yearOf it.releaseDate)),
      ("rating", jOptNum it.voteAverage), ("poster", jOptStr it.posterPath),
      ("logo", jOptStr it.posterPath), ("backdrop", jOptStr it.backdropPath)]
  else if mt = "tv" then
    let tid := it.id.getD 0
    let d := pyStrip (it.overview.getD "")
    some [("id", .int tid), ("kind", .str "series"),
      ("name", .str (pyStrip (it.name.getD ""))),
      ("description", jOptStr (truncDesc d)),
      ("year", jOptInt (yearOf it.firstAirDate)),
      ("rating", jOptNum it.voteAverage), ("poster", jOptStr it.posterPath),
      ("logo", jOptStr it.posterPath), ("backdrop", jOptStr it.backdropPath)]
  else none

/-- A row of the UNION queries used by browse, the home genre shelves
and search (columns `id, kind, name, dt, rating, pop, poster, backdrop,
logos`). -/
structure UnionRow where
  id : ℤ
  kind : String
  name : Option String
  dt : Option String
  rating : Option ℚ
  pop : Option ℚ
  poster : Option String
  backdrop : Option String
  logos : Option (List (String × String))
  deriving Repr, DecidableEq

/-- The item built per row by `app_browse` (server.py 879-890 and
927-945) and by the home genre shelves (server.py 521-531, 560-571):
localized name via `_translated`, then the eight-key card. -/
def browseItem (hasTranslations : Bool) (transTbl : List TransRow)
    (iso639 : String) (iso3166 : Option String) (r : UnionRow) : Card :=
  let mediaType := if r.kind = "movie" then "movie" else "tv"
  let t := translated hasTranslations transTbl mediaType r.id iso639 iso3166
  let name := pyStrip (pyOrStr t.1 (pyOrStr r.name ""))
  [("id", .int r.id), ("kind", .str r.kind), ("name", .str name),
    ("year", jOptInt (yearOf r.dt)), ("rating", jOptNum r.rating),
    ("poster", jOptStr r.poster),
    ("logo", jOptStr (pyOrOpt (pickLogo r.logos iso639) r.poster)),
    ("backdrop", jOptStr r.backdrop)]

/-- The item built per row by `app_search` (server.py 988-1001); the
localized name was already coalesced inside the SQL. -/
def searchItem (iso639 : String) (r : UnionRow) : Card :=
  [("id", .int r.id), ("kind", .str r.kind),
    ("name", .str (pyStrip (pyOrStr r.name ""))),
    ("year", jOptInt (yearOf r.dt)), ("rating", jOptNum r.rating),
    ("poster", jOptStr r.poster),
    ("logo", jOptStr (pyOrOpt (pickLogo r.logos iso639) r.poster)),
    ("backdrop", jOptStr r.backdrop)]

/-! ## `App._enrich_card` (app.py 768-811)

The row fetched by the enrich lookup (`SELECT title/name, overview,
logos_json, backdrop_path ... WHERE id=?`).  The movies and series
tables are lists of `(id, row)` pairs; the backfill scheduling side
effect inside `_enrich_card` does not touch the card and is settled
separately (C1). -/

structure EnrichRow where
  nameOrTitle : Option String
  overview : Option String
  logos : Option (List (String × String))
  backdrop : Option String
  deriving Repr, DecidableEq

/-- The per-row mutation block of `_enrich_card` (app.py 777-804): the
localized name, the description fill-in, the logo override and the
backdrop fill-in, applied to the card dict in order. -/
def enrichApplyRow (hasTranslations : Bool) (transTbl : List TransRow)
    (mediaType : String) (tid : ℤ) (r : EnrichRow) (card : Card)
    (iso639 : String) (iso3166 : Option String) : Card :=
  let t := translated hasTranslations transTbl mediaType tid iso639 iso3166
  let nm := pyStrip (pyOrStr t.1 (pyOrStr r.nameOrTitle ""))
  let card1 := if nm ≠ "" then dset card "name" (.str nm) else card
  let card2 :=
    if pyStrip (jStrOrEmpty (dget card1 "description")) = "" then
      dset card1 "description"
        (jOptStr (truncDesc (pyStrip (pyOrStr t.2 (pyOrStr r.overview "")))))
    else card1
  let card3 := dset card2 "logo"
    (match pickLogo r.logos iso639 with
     | some v => .str v
     | none => (dget card2 "logo").getD .null)
  if !((dget card3 "backdrop").getD .null).truthy then
    dset card3 "backdrop" (jOptStr r.backdrop)
  else card3

/-- The tail of `_enrich_card` (app.py 806-811): poster as logo
fallback, and a `None` backdrop key when absent. -/
def enrichFinal (card : Card) : Card :=
  let poster := (dget card "poster").getD .null
  let card1 := if !((dget card "logo").getD .null).truthy then
      dset card "logo" poster
    else card
  if (dget card1 "backdrop").isNone then dset card1 "backdrop" .null
  else card1

def enrichCard (hasTranslations : Bool) (transTbl : List TransRow)
    (moviesTbl seriesTbl : List (ℤ × EnrichRow)) (card : Card)
    (iso639 : String) (iso3166 : Option String) : Card :=
  let tid := jToInt (dget card "id")
  let kind := jStrOrEmpty (dget card "kind")
  if tid ≤ 0 ∨ (kind ≠ "movie" ∧ kind ≠ "series") then card
  else
    let mediaType := if kind = "movie" then "movie" else "tv"
    let row := if kind = "movie" then moviesTbl.lookup tid
      else seriesTbl.lookup tid
    enrichFinal
      (match row with
       | none => card
       | some r => enrichApplyRow hasTranslations transTbl mediaType tid r
           card iso639 iso3166)

/-! ## Browse (`APIServer.app_browse`, server.py 811-954)

`BROWSE_TABS` from constants.py.  The two query branches (normalized
genre join versus the UNION with optional substring predicate) share the
same pagination skeleton: `limit = page_size + 1`, `offset = (page-1) *
page_size`, `has_more = len(rows) > page_size`, `rows = rows[:page_size]`;
the store query is abstracted as the function `q limit offset`. -/

def browseTabs : List (String × String × Option String) :=
  [("popular", "popular", none), ("rating", "rating", none),
    ("recent", "recent", none), ("action", "genre", some "Action"),
    ("adventure", "genre", some "Adventure"),
    ("animation", "genre", some "Animation"),
    ("comedy", "genre", some "Comedy"), ("crime", "genre", some "Crime"),
    ("documentary", "genre", some "Documentary"),
    ("drama", "genre", some "Drama"), ("family", "genre", some "Family"),
    ("fantasy", "genre", some "Fantasy"),
    ("history", "genre", some "History"), ("horror", "genre", some "Horror"),
    ("music", "genre", some "Music"), ("mystery", "genre", some "Mystery"),
    ("romance", "genre", some "Romance"),
    ("science-fiction", "genre", some "Science Fiction"),
    ("tv-movie", "genre", some "TV Movie"),
    ("thriller", "genre", some "Thriller"), ("war", "genre", some "War"),
    ("western", "genre", some "Western")]

/-- Embeds `self.page_size` (app.py 43). -/
def pageSize : ℕ := 48

structure BrowseOut where
  tab : String
  page : ℤ
  pageSize : ℕ
  hasMore : Bool
  items : List Card
  deriving Repr, DecidableEq

/-- Embeds `app_browse`: `None` on `page < 1` or an unknown tab, else the page
object assembled from the overfetched rows. -/
def appBrowse (q : ℕ → ℤ → List UnionRow) (hasTranslations : Bool)
    (transTbl : List TransRow) (tab : String) (page : ℤ) (iso639 : String)
    (iso3166 : Option String) : Option BrowseOut :=
  if page < 1 then none
  else
    match browseTabs.lookup tab with
    | none => none
    | some _ =>
      let limit := pageSize + 1
      let offset := (page - 1) * (pageSize : ℤ)
      let rows := q limit offset
      let hasMore : Bool := pageSize < rows.length
      let rows := rows.take pageSize
      some { tab := tab, page := page, pageSize := pageSize,
             hasMore := hasMore,
             items := rows.map
               (browseItem hasTranslations transTbl iso639 iso3166) }

/-- The status code `do_GET` sends for the browse assembler's result
(server.py 257-261). -/
def browseResponseCode (o : Option BrowseOut) : ℕ :=
  match o with
  | none => 404
  | some _ => 200

/-! ## Provider GET-JSON (`App._tmdb_get_json`, app.py 134-146)

The network is an explicit list of attempt outcomes; the function under
test reads from its front.  A parsed 200 body is a JSON dict, some other
JSON value, or invalid JSON (whose `json.loads` raises, caught by the
surrounding `except`). -/

inductive ParsedJson where
  | dict (d : List (String × String))
  | other
  | invalid
  deriving Repr, DecidableEq

inductive AttemptResult where
  | transportError
  | response (status : ℕ) (body : ParsedJson)
  deriving Repr, DecidableEq

/-- Embeds `App._tmdb_get_json`: one attempt.  A transport error (or parse
error) is caught and yields the sentinel `(None, None)`; a non-200
status yields `(status, None)`; a 200 yields the parsed value only when
it is a dict. -/
def tmdbGetJson (attempts : List AttemptResult) :
    Option ℕ × Option (List (String × String)) :=
  match attempts with
  | [] => (none, none)
  | a :: _ =>
    match a with
    | .transportError => (none, none)
    | .response st body =>
      if st ≠ 200 then (some st, none)
      else
        match body with
        | .invalid => (none, none)
        | .dict d => (some 200, some d)
        | .other => (some 200, none)

/-- Modelled from the spec: the GET-JSON contract of spec §4.2 — up to 6
attempts, retrying (after the described sleeps, which do not affect the
returned value) on transport error, on 429 and on 5xx; on 200 parse and
return the dict; on any other status return `(status, None)`; the
sentinel once the attempts are exhausted. -/
def specGetJson : ℕ → List AttemptResult →
    Option ℕ × Option (List (String × String))
  | 0, _ => (none, none)
  | _ + 1, [] => (none, none)
  | fuel + 1, a :: rest =>
    match a with
    | .transportError => specGetJson fuel rest
    | .response st body =>
      if st = 429 then specGetJson fuel rest
      else if 500 ≤ st ∧ st < 600 then specGetJson fuel rest
      else if st = 200 then
        match body with
        | .dict d => (some 200, some d)
        | _ => (some 200, none)
      else (some st, none)

/-! ## Similar titles (`App._tmdb_similar`, app.py 813-866) -/

abbrev SimKey := String × ℤ × String

/-- Embeds `similar_ttl_s = 3 * 24 * 3600`. -/
def similarTtl : ℚ := 3 * 24 * 3600

structure SimilarItem where
  id : Option ℤ
  title : Option String
  name : Option String
  releaseDate : Option String
  firstAirDate : Option String
  voteAverage : Option ℚ
  posterPath : Option String
  backdropPath : Option String
  deriving Repr, DecidableEq

/-- One entry of the similar list (app.py 842-853); skipped when the
provider id is missing or non-positive. -/
def similarCard (mediaType : String) (it : SimilarItem) : Option Card :=
  let i := it.id.getD 0
  if i ≤ 0 then none
  else
    some [("id", .int i),
      ("kind", .str (if mediaType = "movie" then "movie" else "series")),
      ("name", .str (pyStrip (pyOrStr it.title (pyOrStr it.name "")))),
      ("year", jOptInt (yearOf (pyOrOpt it.releaseDate it.firstAirDate))),
      ("rating", jOptNum it.voteAverage), ("poster", jOptStr it.posterPath),
      ("logo", jOptStr it.posterPath), ("backdrop", jOptStr it.backdropPath)]

/-- The outcome of the one provider call `_tmdb_similar` makes: an
exception anywhere in the fetch/parse (caught), or an HTTP status with
the parsed `results` list (`none` for a missing or non-list value). -/
inductive SimilarFetch where
  | exn
  | http (status : ℕ) (results : Option (List SimilarItem))
  deriving Repr, DecidableEq

/-- Embeds `App._tmdb_similar`.  Returns the list handed to the caller, the new
cache, and whether a provider request was issued.  `enrich` abstracts
the `_enrich_card` pass that runs only on a non-empty list. -/
def tmdbSimilar (tmdbKey : String)
    (cache : List (SimKey × ℚ × List Card))
    (enrich : List Card → List Card) (kind : String) (tid : ℤ)
    (iso639 : String) (iso3166 : Option String) (now : ℚ)
    (resp : SimilarFetch) :
    List Card × List (SimKey × ℚ × List Card) × Bool :=
  if tmdbKey = "" then ([], cache, false)
  else
    let lt := langTag iso639 iso3166
    let k : SimKey := (kind, tid, lt)
    let fresh :=
      match cache.lookup k with
      | some (ts, v) => if now - ts < similarTtl then some v else none
      | none => none
    match fresh with
    | some v => (v, cache, false)
    | none =>
      let mediaType := if kind = "movie" then "movie" else "tv"
      let out :=
        match resp with
        | .exn => []
        | .http st results =>
          if st = 200 then
            match results with
            | some l => (l.take 24).filterMap (similarCard mediaType)
            | none => []
          else []
      let out := if out.isEmpty then out else enrich out
      (out, (k, now, out) :: cache, true)

/-- A provider call that failed or returned non-200. -/
def SimilarFetch.failed : SimilarFetch → Prop
  | .exn => True
  | .http st _ => st ≠ 200

instance (f : SimilarFetch) : Decidable f.failed := by
  cases f <;> simp [SimilarFetch.failed] <;> infer_instance

/-! ## Backfill worker task (`App._schedule_backfill.run`, app.py 245-278)

The task re-runs the missing-parts detector, then performs a fixed
sequence of fetch+upsert steps; a failed (exception, non-200 or empty)
base fetch aborts the whole task via `return` before the commit, while
the logos/videos/cast/translations helpers each swallow their own fetch
failure internally (`_upsert_tmdb_logos` app.py 383-395,
`_upsert_tmdb_videos` 405-410, `_upsert_tmdb_cast` 454-459,
`_upsert_tmdb_translations` 489-494) and the task carries on.  The
provider responses consumed by one task run are an explicit oracle; a
`none` entry stands for the combined failure check
`st != 200 or not data` (including a caught exception).  `recent` is
untouched by the task; the `finally` block always discards the key from
`inflight`. -/

/-- The record returned by `App._missing_parts` (app.py 220-228). -/
structure MissParts where
  langTag : String
  needBase : Bool
  needLogos : Bool
  needTranslations : Bool
  needCast : Bool
  needVideos : Bool
  needTv : Bool
  deriving Repr, DecidableEq

/-- The base payload, as far as the tv season/episode step reads it:
the `season_number`s of `data.get("seasons")`. -/
structure BaseData where
  seasons : List ℤ
  deriving Repr, DecidableEq

/-- The provider responses available to one worker task. -/
structure TaskOracle where
  base : Option BaseData
  season : Option (List ℤ)
  logos1 : Option (List (String × String))
  logos2 : Option (List (String × String))
  videos : Option (List Bool)
  cast : Option ℕ
  translations : Option ℕ
  deriving Repr, DecidableEq

/-- Which writes the task performed against the store. -/
structure TaskEffects where
  baseUpserted : Bool := false
  seasonsUpserted : Bool := false
  episodesUpserted : Bool := false
  logosUpserted : Bool := false
  videosUpserted : Bool := false
  castReplaced : Bool := false
  translationsUpserted : Bool := false
  committed : Bool := false
  deriving Repr, DecidableEq

/-- Embeds `App._upsert_tmdb_tv_seasons_episodes` (app.py 522-607): upsert the
positive-numbered seasons, then fetch the lowest positive season's
episodes and upsert the positive-numbered ones. -/
def tvSeasonsEpisodesEffects (hasSeasons hasEpisodes : Bool)
    (data : BaseData) (season : Option (List ℤ)) : Bool × Bool :=
  let seasonsUpserted := hasSeasons && data.seasons.any (fun sn => 0 < sn)
  let episodesUpserted :=
    if !hasEpisodes then false
    else
      match data.seasons.find? (fun sn => 0 < sn) with
      | none => false
      | some _ =>
        match season with
        | none => false
        | some eps => eps.any (fun en => 0 < en)
  (seasonsUpserted, episodesUpserted)

/-- The steps after the base fetch (app.py 263-271): each helper guards
its own fetch and the task commits at the end. -/
def afterBaseSteps (m : MissParts) (o : TaskOracle) (e : TaskEffects) :
    TaskEffects :=
  let e := if m.needLogos then
      { e with logosUpserted :=
          match o.logos1 with
          | some _ => true
          | none => o.logos2.isSome }
    else e
  let e := if m.needVideos then
      { e with videosUpserted :=
          match o.videos with
          | some items => items.any id
          | none => false }
    else e
  let e := if m.needCast then { e with castReplaced := o.cast.isSome } else e
  let e := if m.needTranslations then
      { e with translationsUpserted := o.translations.isSome }
    else e
  { e with committed := true }

/-- The worker task body (app.py 245-273), as the store writes it
performs.  `miss` is the detector's result on the task's own fresh
connection; `none` means nothing is missing any more and the task exits
before any fetch. -/
def runBackfillTask (hasSeasons hasEpisodes : Bool) (mediaType : String)
    (miss : Option MissParts) (o : TaskOracle) : TaskEffects :=
  match miss with
  | none => {}
  | some m =>
    if m.needBase || (mediaType = "tv" && m.needTv) then
      match o.base with
      | none => {}
      | some data =>
        let e : TaskEffects := { baseUpserted := true }
        let e :=
          if mediaType = "tv" && m.needTv then
            let se := tvSeasonsEpisodesEffects hasSeasons hasEpisodes data
              o.season
            { e with seasonsUpserted := se.1, episodesUpserted := se.2 }
          else e
        afterBaseSteps m o e
    else afterBaseSteps m o {}

/-- The `finally` block of the task (app.py 275-276): the key is
discarded from `inflight`; `recent` is not touched. -/
def finalizeBackfillTask (st : BackfillState) (k : BackfillKey) :
    BackfillState :=
  { st with inflight := st.inflight.filter (fun x => x ≠ k) }

/-! # Theorems -/

/-! ## Shared helper lemmas -/

lemma acquireStep_capacity (b : TokenBucket) (now n : ℚ) :
    ((b.acquireStep now n).1).capacity = b.capacity := by
  unfold TokenBucket.acquireStep
  dsimp only
  split_ifs <;> rfl

lemma acquireStep_inv (b : TokenBucket) (now n : ℚ) (hinv : b.inv)
    (hn0 : 0 ≤ n) : ((b.acquireStep now n).1).inv := by
  obtain ⟨h0, h1⟩ := hinv
  have hcap : (0 : ℚ) ≤ b.capacity := le_trans h0 h1
  have hmin1 : b.capacity ⊓ (b.tokens + (now - b.t) * b.rate) ≤ b.capacity :=
    min_le_left _ _
  unfold TokenBucket.acquireStep
  dsimp only
  split_ifs with hr hdt hle hle' <;> unfold TokenBucket.inv <;> dsimp only
  · exact ⟨h0, h1⟩
  · dsimp only at hle
    exact ⟨by linarith, by linarith⟩
  · have h2 : (0 : ℚ) ≤ b.tokens + (now - b.t) * b.rate := by
      have : (0 : ℚ) ≤ (now - b.t) * b.rate :=
        mul_nonneg (le_of_lt (by linarith)) (by linarith)
      linarith
    exact ⟨le_min hcap h2, hmin1⟩
  · exact ⟨by linarith, by linarith⟩
  · exact ⟨h0, h1⟩

/-- Claim C9: (token bucket state invariant).  For every bucket with
positive rate satisfying `0 ≤ tokens ≤ capacity`, and every sequence of
acquire-loop iterations whose requested amounts satisfy
`0 < n ≤ capacity`, the invariant `0 ≤ tokens ≤ capacity` still holds
after the whole sequence (hence after every acquire, by applying the
statement to a prefix): the refill is clamped at `capacity` and tokens
are only deducted when `tokens ≥ n`. -/
theorem tokenBucket_inv_preserved (b : TokenBucket) (ops : List (ℚ × ℚ))
    (hrate : 0 < b.rate) (hinv : b.inv)
    (hops : ∀ op ∈ ops, 0 < op.2 ∧ op.2 ≤ b.capacity) :
    (b.runAcquires ops).inv := by
  induction ops generalizing b with
  | nil => exact hinv
  | cons op rest ih =>
    have hop := hops op (List.mem_cons_self _ _)
    have hstep : ((b.acquireStep op.1 op.2).1).inv :=
      acquireStep_inv b op.1 op.2 hinv (le_of_lt hop.1)
    have hcapeq := acquireStep_capacity b op.1 op.2
    have hrateeq : ((b.acquireStep op.1 op.2).1).rate = b.rate := by
      unfold TokenBucket.acquireStep
      dsimp only
      split_ifs <;> rfl
    have := ih ((b.acquireStep op.1 op.2).1) (by rw [hrateeq]; exact hrate)
      hstep
      (fun o ho => by
        rw [hcapeq]
        exact hops o (List.mem_cons_of_mem _ ho))
    simpa [TokenBucket.runAcquires] using this

/-- Witness for C9 at a concrete bucket and two acquisitions. -/
theorem tokenBucket_inv_preserved_witness :
    (TokenBucket.runAcquires ⟨1, 1, 1, 0⟩ [(1, 1), (2, 1)]).inv :=
  tokenBucket_inv_preserved ⟨1, 1, 1, 0⟩ [(1, 1), (2, 1)] (by decide)
    (by constructor <;> decide)
    (by intro op hop; fin_cases hop <;> exact ⟨by decide, by decide⟩)

/-- Claim C6 counterexample:.  At configured total rate `R = 1` and
configured foreground rate `7`, the code computes `fg = R = 1` while the
claimed formula gives `min(7, R-1) = 0`: the claim's formula fails for
`R ≤ 1` because of the `if self.tmdb_rps > 1 else self.tmdb_rps` guard
(app.py 73). -/
theorem fgRate_claim_counterexample :
    fgRate 1 7 = 1 ∧ min (7 : ℚ) (1 - 1) = 0 ∧ (1 : ℚ) ≠ 0 := by
  refine ⟨?_, by norm_num, by norm_num⟩
  unfold fgRate
  norm_num

/-- Claim C6: (amended).  For every configured total rate `R` and
foreground rate `cfg`: when `R > 1` the foreground rate is
`min(cfg, R-1)`, otherwise it is `R` itself; the background rate is
`max(0, R - fg)`; the foreground bucket is created with capacity
`max(1, fg)` and full tokens; the background bucket exists exactly when
`bg > 0` and then has capacity `max(1, bg)` and full tokens. -/
theorem initLimiters_split (R cfg t0 : ℚ) :
    ((initLimiters R cfg t0).1.rate = fgRate R cfg ∧
      (initLimiters R cfg t0).1.capacity = max 1 (fgRate R cfg) ∧
      (initLimiters R cfg t0).1.tokens = max 1 (fgRate R cfg)) ∧
    (1 < R → fgRate R cfg = min cfg (R - 1)) ∧
    (R ≤ 1 → fgRate R cfg = R) ∧
    bgRate R cfg = max 0 (R - fgRate R cfg) ∧
    (0 < bgRate R cfg →
      (initLimiters R cfg t0).2 =
        some ⟨bgRate R cfg, max 1 (bgRate R cfg), max 1 (bgRate R cfg), t0⟩) ∧
    (bgRate R cfg ≤ 0 → (initLimiters R cfg t0).2 = none) := by
  refine ⟨⟨rfl, rfl, rfl⟩, ?_, ?_, rfl, ?_, ?_⟩
  · intro h
    unfold fgRate
    rw [if_pos h]
  · intro h
    unfold fgRate
    rw [if_neg (not_lt.mpr h)]
  · intro h
    unfold initLimiters
    dsimp only
    rw [if_pos h]
    rfl
  · intro h
    unfold initLimiters
    dsimp only
    rw [if_neg (not_lt.mpr h)]

/-- Witness for C6 at the default configuration `R = 47`, `cfg = 7`. -/
theorem initLimiters_split_witness :
    fgRate 47 7 = min 7 (47 - 1) ∧ fgRate 1 7 = 1 ∧
    (initLimiters 47 7 0).1.rate = fgRate 47 7 := by
  refine ⟨(initLimiters_split 47 7 0).2.1 (by norm_num),
    ?_, (initLimiters_split 47 7 0).1.1⟩
  have h := (initLimiters_split 1 7 0).2.2.1 (by norm_num)
  exact h

lemma scheduleBackfill_fresh_drop (tmdbKey mediaType : String) (tid : ℤ)
    (iso639 : String) (iso3166 : Option String) (full : Bool)
    (st : BackfillState) (now t0 : ℚ)
    (hlk : st.recent.lookup
      (mediaType, tid, langTag iso639 iso3166, if full then 1 else 0) =
        some t0)
    (ht0 : t0 ≠ 0) (httl : now - t0 < backfillTtl) :
    scheduleBackfill tmdbKey mediaType tid iso639 iso3166 full st now =
      (st, false) := by
  set fb : ℕ := (if full = true then 1 else 0) with hfb
  unfold scheduleBackfill
  rw [← hfb]
  by_cases hg : tmdbKey = "" ∨ (mediaType ≠ "movie" ∧ mediaType ≠ "tv") ∨
      tid ≤ 0
  · rw [if_pos hg]
  · rw [if_neg hg]
    dsimp only
    rw [hlk]
    dsimp only
    rw [if_pos ⟨ht0, httl⟩]

lemma scheduleBackfill_submit_recent (tmdbKey mediaType : String) (tid : ℤ)
    (iso639 : String) (iso3166 : Option String) (full : Bool)
    (st : BackfillState) (now : ℚ)
    (hsub : (scheduleBackfill tmdbKey mediaType tid iso639 iso3166 full st
      now).2 = true) :
    (scheduleBackfill tmdbKey mediaType tid iso639 iso3166 full st
        now).1.recent.lookup
      (mediaType, tid, langTag iso639 iso3166, if full then 1 else 0) =
        some now := by
  set fb : ℕ := (if full = true then 1 else 0) with hfb
  unfold scheduleBackfill at hsub ⊢
  rw [← hfb] at hsub ⊢
  by_cases hg : tmdbKey = "" ∨ (mediaType ≠ "movie" ∧ mediaType ≠ "tv") ∨
      tid ≤ 0
  · rw [if_pos hg] at hsub
    simp at hsub
  · rw [if_neg hg] at hsub ⊢
    dsimp only at hsub ⊢
    obtain hnone | ⟨t0', hsome⟩ := Option.eq_none_or_eq_some
      (st.recent.lookup (mediaType, tid, langTag iso639 iso3166, fb))
    · simp only [hnone] at hsub ⊢
      by_cases h : backfillQueueLimit ≤ st.inflight.length ∨
          (mediaType, tid, langTag iso639 iso3166, fb) ∈ st.inflight
      · rw [if_pos h] at hsub
        simp at hsub
      · rw [if_neg h]
        simp [List.lookup]
    · simp only [hsome] at hsub ⊢
      by_cases h1 : t0' ≠ 0 ∧ now - t0' < backfillTtl
      · rw [if_pos h1] at hsub
        simp at hsub
      · rw [if_neg h1] at hsub ⊢
        by_cases h2 : backfillQueueLimit ≤ st.inflight.length ∨
            (mediaType, tid, langTag iso639 iso3166, fb) ∈ st.inflight
        · rw [if_pos h2] at hsub
          simp at hsub
        · rw [if_neg h2]
          simp [List.lookup]

/-- Claim C1: (backfill deduplication).  For the key
`k = (media_type, tid, lang_tag, full)`:
(i) a call less than `BACKFILL_TTL` after the (nonzero) timestamp
recorded in `recent` for `k` returns without submitting and leaves the
state unchanged;
(ii) a call with valid guards past the TTL (or with no recorded
timestamp) records `recent[k] = now` and submits exactly when `inflight`
is below `BACKFILL_QUEUE_LIMIT` and does not already contain `k`;
(iii) hence two calls for the same `(kind, id, lang, region, full)`
within `BACKFILL_TTL` of each other submit at most one task: if the
first (at positive time `t1`) submitted, the second (at `now2`,
`now2 - t1 < BACKFILL_TTL`) does not. -/
theorem scheduleBackfill_dedup (tmdbKey mediaType : String) (tid : ℤ)
    (iso639 : String) (iso3166 : Option String) (full : Bool)
    (st : BackfillState) (now t0 t1 now2 : ℚ) :
    (st.recent.lookup
        (mediaType, tid, langTag iso639 iso3166, if full then 1 else 0) =
          some t0 →
      t0 ≠ 0 → now - t0 < backfillTtl →
      scheduleBackfill tmdbKey mediaType tid iso639 iso3166 full st now =
        (st, false)) ∧
    (tmdbKey ≠ "" → (mediaType = "movie" ∨ mediaType = "tv") → 0 < tid →
      (st.recent.lookup
          (mediaType, tid, langTag iso639 iso3166, if full then 1 else 0) =
            none ∨
        (st.recent.lookup
            (mediaType, tid, langTag iso639 iso3166, if full then 1 else 0) =
              some t0 ∧
          (t0 = 0 ∨ backfillTtl ≤ now - t0))) →
      ((scheduleBackfill tmdbKey mediaType tid iso639 iso3166 full st
            now).1.recent.lookup
          (mediaType, tid, langTag iso639 iso3166, if full then 1 else 0) =
          some now ∧
        ((scheduleBackfill tmdbKey mediaType tid iso639 iso3166 full st
              now).2 = true ↔
          st.inflight.length < backfillQueueLimit ∧
            (mediaType, tid, langTag iso639 iso3166,
              if full then 1 else 0) ∉ st.inflight))) ∧
    (0 < t1 → now2 - t1 < backfillTtl →
      (scheduleBackfill tmdbKey mediaType tid iso639 iso3166 full st
          t1).2 = true →
      (scheduleBackfill tmdbKey mediaType tid iso639 iso3166 full
          (scheduleBackfill tmdbKey mediaType tid iso639 iso3166 full st
            t1).1 now2).2 = false) := by
  refine ⟨fun hlk ht0 httl =>
    scheduleBackfill_fresh_drop tmdbKey mediaType tid iso639 iso3166 full st
      now t0 hlk ht0 httl, ?_, ?_⟩
  · intro hkey hmt htid hcase
    have hg : ¬(tmdbKey = "" ∨ (mediaType ≠ "movie" ∧ mediaType ≠ "tv") ∨
        tid ≤ 0) := by
      push_neg
      refine ⟨hkey, ?_, by omega⟩
      intro hmv
      rcases hmt with h | h
      · exact absurd h hmv
      · exact h
    set fb : ℕ := (if full = true then 1 else 0) with hfb
    unfold scheduleBackfill
    rw [← hfb, if_neg hg]
    dsimp only
    rcases hcase with hnone | ⟨hsome, hstale⟩
    · simp only [hnone]
      split_ifs with h
      · refine ⟨by simp [List.lookup], ?_⟩
        simp only [Bool.false_eq_true, false_iff]
        intro hcontra
        rcases h with h | h
        · omega
        · exact hcontra.2 h
      · refine ⟨by simp [List.lookup], ?_⟩
        push_neg at h
        simp only [true_iff]
        exact ⟨by omega, h.2⟩
    · simp only [hsome]
      have hcond : ¬(t0 ≠ 0 ∧ now - t0 < backfillTtl) := by
        rcases hstale with h | h
        · intro hc; exact hc.1 h
        · intro hc; exact absurd hc.2 (not_lt.mpr h)
      rw [if_neg hcond]
      split_ifs with h
      · refine ⟨by simp [List.lookup], ?_⟩
        simp only [Bool.false_eq_true, false_iff]
        intro hcontra
        rcases h with h | h
        · omega
        · exact hcontra.2 h
      · refine ⟨by simp [List.lookup], ?_⟩
        push_neg at h
        simp only [true_iff]
        exact ⟨by omega, h.2⟩
  · intro ht1 httl hsub
    have hrec := scheduleBackfill_submit_recent tmdbKey mediaType tid iso639
      iso3166 full st t1 hsub
    have := scheduleBackfill_fresh_drop tmdbKey mediaType tid iso639 iso3166
      full ((scheduleBackfill tmdbKey mediaType tid iso639 iso3166 full st
        t1).1) now2 t1 hrec (ne_of_gt ht1) httl
    rw [this]

/-- Witness for C1 at a fresh state: a first call at time `1` records the
key and submits. -/
theorem scheduleBackfill_dedup_witness :
    (scheduleBackfill "key" "movie" 1 "en" none false ⟨[], []⟩
        1).1.recent.lookup
      ("movie", 1, langTag "en" none, if false then 1 else 0) = some 1 ∧
    ((scheduleBackfill "key" "movie" 1 "en" none false ⟨[], []⟩ 1).2 = true ↔
      (BackfillState.mk [] []).inflight.length < backfillQueueLimit ∧
        ("movie", 1, langTag "en" none, if false then 1 else 0) ∉
          (BackfillState.mk [] []).inflight) :=
  (scheduleBackfill_dedup "key" "movie" 1 "en" none false ⟨[], []⟩ 1 0 0
      0).2.1
    (by decide) (Or.inl rfl) (by decide) (Or.inl (by decide))

/-- Claim C3: (locale precedence).  The `lang` query parameter (first
value, stripped) wins when non-empty and is parsed by `_split_lang`;
otherwise the Accept-Language header's first comma-separated tag with
the q-factor stripped is parsed; otherwise the default `("en", none)`.
The parse splits on `-` or `_`, lower-cases the language and
upper-cases the optional region (concrete conjuncts). -/
theorem pickLang_precedence :
    (∀ (v : String) (rest : List String) (hdr : Option String),
      pyStrip v ≠ "" →
      pickLang (some (v :: rest)) hdr = splitLang (pyStrip v)) ∧
    (∀ hdr, pickLang none hdr = acceptLang hdr) ∧
    (∀ hdr, pickLang (some []) hdr = acceptLang hdr) ∧
    (∀ (v : String) (rest : List String) (hdr : Option String),
      pyStrip v = "" →
      pickLang (some (v :: rest)) hdr = acceptLang hdr) ∧
    acceptLang none = ("en", none) ∧
    acceptLang (some "") = ("en", none) ∧
    (∀ h : String, h ≠ "" → acceptLang (some h) =
      splitLang (pyStrip (pyBeforeChar ';' (pyStrip (pyBeforeChar ',' h))))) ∧
    splitLang "de-DE" = ("de", some "DE") ∧
    splitLang "de_DE" = ("de", some "DE") ∧
    splitLang "DE" = ("de", none) ∧
    splitLang "de-" = ("de", none) ∧
    splitLang "" = ("en", none) ∧
    pickLang (some ["de"]) (some "en-US,en;q=0.9") = ("de", none) ∧
    pickLang none (some "en-US,en;q=0.9") = ("en", some "US") := by
  refine ⟨?_, fun _ => rfl, fun _ => rfl, ?_, rfl, rfl, ?_,
    by decide, by decide, by decide, by decide, by decide, by decide,
    by decide⟩
  · intro v rest hdr hv
    simp [pickLang, hv]
  · intro v rest hdr hv
    simp [pickLang, hv]
  · intro h hh
    simp [acceptLang, hh]

/-- Witness for C3: the query parameter `de` beats the header
`en-US,en;q=0.9`. -/
theorem pickLang_precedence_witness :
    pickLang (some ["de"]) (some "en-US,en;q=0.9") =
      splitLang (pyStrip "de") :=
  pickLang_precedence.1 "de" [] (some "en-US,en;q=0.9") (by decide)

/-- Claim C4: (translation fallback).  With a region, the exact
`(lang, region)` row wins when present; on exact miss the lookup equals
the language-only lookup; the language-only lookup returns the first row
matching the language, else `(None, None)`, in which case the card
builder falls back to the base name column. -/
theorem translated_fallback (tbl : List TransRow) (mt : String) (tid : ℤ)
    (lang r3 : String) (row : TransRow) :
    (r3 ≠ "" →
      tbl.find? (fun r =>
          r.mediaType = mt ∧ r.tmdbId = tid ∧ r.iso639 = lang ∧
            r.iso3166 = r3) = some row →
      translated true tbl mt tid lang (some r3) = (row.title, row.overview)) ∧
    (r3 ≠ "" →
      tbl.find? (fun r =>
          r.mediaType = mt ∧ r.tmdbId = tid ∧ r.iso639 = lang ∧
            r.iso3166 = r3) = none →
      translated true tbl mt tid lang (some r3) =
        translated true tbl mt tid lang none) ∧
    (tbl.find? (fun r =>
        r.mediaType = mt ∧ r.tmdbId = tid ∧ r.iso639 = lang) = some row →
      translated true tbl mt tid lang none = (row.title, row.overview)) ∧
    (tbl.find? (fun r =>
        r.mediaType = mt ∧ r.tmdbId = tid ∧ r.iso639 = lang) = none →
      translated true tbl mt tid lang none = (none, none)) ∧
    (∀ (trow : TitleRow) (iso3166 : Option String) (wd : Bool),
      translated true tbl mt trow.id lang iso3166 = (none, none) →
      dget (cardFromRow true tbl true mt trow lang iso3166 wd) "name" =
        some (.str (pyStrip (pyOrStr trow.nameOrTitle "")))) := by
  refine ⟨?_, ?_, ?_, ?_, ?_⟩
  · intro h3 hfind
    simp only [Bool.decide_and] at hfind
    simp [translated, h3, hfind]
  · intro h3 hfind
    simp only [Bool.decide_and] at hfind
    simp [translated, h3, hfind]
  · intro hfind
    simp only [Bool.decide_and] at hfind
    simp [translated, hfind]
  · intro hfind
    simp only [Bool.decide_and] at hfind
    simp [translated, hfind]
  · intro trow iso3166 wd htr
    simp [cardFromRow, dget, List.lookup, htr, pyOrStr]

/-- Witness for C4 on a one-row table: no `(de, DE)` row, but a
`(de, ZZ)` row, so the language-only row is used. -/
theorem translated_fallback_witness :
    translated true [⟨"movie", 1, "de", "ZZ", some "T", some "O"⟩] "movie" 1
        "de" (some "DE") =
      translated true [⟨"movie", 1, "de", "ZZ", some "T", some "O"⟩] "movie"
        1 "de" none ∧
    translated true [⟨"movie", 1, "de", "ZZ", some "T", some "O"⟩] "movie" 1
        "de" none = (some "T", some "O") :=
  ⟨(translated_fallback [⟨"movie", 1, "de", "ZZ", some "T", some "O"⟩]
      "movie" 1 "de" "DE" ⟨"movie", 1, "de", "ZZ", some "T", some "O"⟩).2.1
      (by decide) (by decide),
    (translated_fallback [⟨"movie", 1, "de", "ZZ", some "T", some "O"⟩]
      "movie" 1 "de" "DE" ⟨"movie", 1, "de", "ZZ", some "T", some "O"⟩).2.2.1
      (by decide)⟩

/-- Claim C5: (browse pagination).  `page < 1` or an unknown tab yields
`None` (served as 404); for a known tab and `page ≥ 1` the page object
is assembled from the overfetched query `q (48+1) ((page-1)*48)`:
`page_size = 48`, at most 48 items, and `has_more` exactly when the
query returned more than 48 rows. -/
theorem appBrowse_pagination (q : ℕ → ℤ → List UnionRow)
    (hasTranslations : Bool) (transTbl : List TransRow) (tab : String)
    (page : ℤ) (iso639 : String) (iso3166 : Option String) :
    (page < 1 →
      appBrowse q hasTranslations transTbl tab page iso639 iso3166 = none) ∧
    (browseTabs.lookup tab = none →
      appBrowse q hasTranslations transTbl tab page iso639 iso3166 = none) ∧
    (∀ spec, browseTabs.lookup tab = some spec → 1 ≤ page →
      appBrowse q hasTranslations transTbl tab page iso639 iso3166 =
        some { tab := tab, page := page, pageSize := pageSize,
               hasMore := decide (pageSize <
                 (q (pageSize + 1) ((page - 1) * (pageSize : ℤ))).length),
               items := ((q (pageSize + 1)
                   ((page - 1) * (pageSize : ℤ))).take pageSize).map
                 (browseItem hasTranslations transTbl iso639 iso3166) }) ∧
    (∀ out,
      appBrowse q hasTranslations transTbl tab page iso639 iso3166 =
        some out →
      out.pageSize = 48 ∧ out.items.length ≤ 48 ∧
        (out.hasMore = true ↔
          48 < (q 49 ((page - 1) * 48)).length)) ∧
    browseResponseCode
      (appBrowse q hasTranslations transTbl "unknown-tab" page iso639
        iso3166) = 404 := by
  refine ⟨?_, ?_, ?_, ?_, ?_⟩
  · intro hp
    simp [appBrowse, hp]
  · intro htab
    unfold appBrowse
    split_ifs with hp
    · rfl
    · simp [htab]
  · intro spec hspec hp
    unfold appBrowse
    rw [if_neg (by omega)]
    simp [hspec]
  · intro out hout
    unfold appBrowse at hout
    split_ifs at hout with hp
    rcases hcase : browseTabs.lookup tab with _ | spec
    · rw [hcase] at hout
      simp at hout
    · rw [hcase] at hout
      dsimp only at hout
      have hout' := hout.symm
      injection hout' with h
      subst h
      refine ⟨rfl, ?_, ?_⟩
      · simp [pageSize]
      · simp [pageSize]
  · unfold appBrowse
    split_ifs with hp
    · rfl
    · simp [browseTabs, List.lookup, browseResponseCode]

/-- Witness for C5 with a concrete three-row query on the `popular`
tab. -/
theorem appBrowse_pagination_witness :
    appBrowse (fun _ _ => []) true [] "popular" 1 "en" none =
      some { tab := "popular", page := 1, pageSize := pageSize,
             hasMore := decide (pageSize <
               (([] : List UnionRow)).length),
             items := ((([] : List UnionRow)).take pageSize).map
               (browseItem true [] "en" none) } :=
  (appBrowse_pagination (fun _ _ => []) true [] "popular" 1 "en"
      none).2.2.1 ("popular", none) (by decide) (by decide)

/-- Claim C2 counterexample:.  `App._tmdb_get_json` (app.py 134-146) does
not retry: with a transport error on the first attempt followed by a
successful 200 dict response, the code returns the sentinel
`(None, None)` immediately, while the behaviour described by the claim
(spec §4.2, modelled by `specGetJson` with 6 attempts) would retry and
return the object. -/
theorem tmdbGetJson_no_retry_counterexample :
    tmdbGetJson [.transportError, .response 200 (.dict [])] =
        (none, none) ∧
      specGetJson 6 [.transportError, .response 200 (.dict [])] =
        (some 200, some []) ∧
      tmdbGetJson [.transportError, .response 200 (.dict [])] ≠
        specGetJson 6 [.transportError, .response 200 (.dict [])] := by
  refine ⟨rfl, rfl, by decide⟩

/-- Claim C2: (amended).  Every call to `App._tmdb_get_json` makes exactly
one attempt, and the result depends only on that first attempt: a
transport (or JSON-parse) error is caught and returns the sentinel
`(None, None)` with no sleep and no retry; a non-200 status returns
`(status, None)` with no sleep and no retry (429's Retry-After header
and 5xx backoff are not consulted); a 200 returns the parsed body only
when it is a JSON object, else `(200, None)`.  Errors are non-fatal:
the function never raises. -/
theorem tmdbGetJson_single_attempt (attempts rest : List AttemptResult)
    (st : ℕ) (body : ParsedJson) (d : List (String × String)) :
    tmdbGetJson attempts = tmdbGetJson (attempts.take 1) ∧
    tmdbGetJson [] = (none, none) ∧
    tmdbGetJson (.transportError :: rest) = (none, none) ∧
    (st ≠ 200 →
      tmdbGetJson (.response st body :: rest) = (some st, none)) ∧
    tmdbGetJson (.response 200 (.dict d) :: rest) = (some 200, some d) ∧
    tmdbGetJson (.response 200 .other :: rest) = (some 200, none) ∧
    tmdbGetJson (.response 200 .invalid :: rest) = (none, none) := by
  refine ⟨?_, rfl, rfl, ?_, ?_, ?_, ?_⟩
  · cases attempts with
    | nil => rfl
    | cons a rest' => rfl
  · intro hst
    simp [tmdbGetJson, hst]
  · simp [tmdbGetJson]
  · simp [tmdbGetJson]
  · simp [tmdbGetJson]

/-- Witness for C2 (amended): a 429 response returns `(429, None)` at
once, consuming no further attempt. -/
theorem tmdbGetJson_single_attempt_witness :
    tmdbGetJson [.response 429 .other, .response 200 (.dict [])] =
      (some 429, none) :=
  (tmdbGetJson_single_attempt
      [.response 429 .other, .response 200 (.dict [])]
      [.response 200 (.dict [])] 429 .other []).2.2.2.1 (by decide)

/-- Claim C10: (similar-list negative caching).  With a provider key, a
cold cache for `(kind, id, lang_tag)` and a provider call that fails or
returns non-200, `_tmdb_similar` returns the empty list, issues the one
provider request and stores `(now, [])` in the cache; every subsequent
lookup for the same key within the 3-day TTL returns `[]` from the
cache with no provider request and no cache change. -/
theorem tmdbSimilar_negative_cache (tmdbKey : String)
    (cache : List (SimKey × ℚ × List Card))
    (enrich : List Card → List Card) (kind : String) (tid : ℤ)
    (iso639 : String) (iso3166 : Option String) (now : ℚ)
    (resp : SimilarFetch) (hkey : tmdbKey ≠ "")
    (hcold : cache.lookup (kind, tid, langTag iso639 iso3166) = none)
    (hfail : resp.failed) :
    (tmdbSimilar tmdbKey cache enrich kind tid iso639 iso3166 now
        resp).1 = [] ∧
    (tmdbSimilar tmdbKey cache enrich kind tid iso639 iso3166 now
        resp).2.2 = true ∧
    (tmdbSimilar tmdbKey cache enrich kind tid iso639 iso3166 now
        resp).2.1.lookup (kind, tid, langTag iso639 iso3166) =
      some (now, []) ∧
    (∀ (enrich2 : List Card → List Card) (now2 : ℚ)
        (resp2 : SimilarFetch), now2 - now < similarTtl →
      tmdbSimilar tmdbKey
          (tmdbSimilar tmdbKey cache enrich kind tid iso639 iso3166 now
            resp).2.1 enrich2 kind tid iso639 iso3166 now2 resp2 =
        ([],
          (tmdbSimilar tmdbKey cache enrich kind tid iso639 iso3166 now
            resp).2.1, false)) := by
  have hout : (tmdbSimilar tmdbKey cache enrich kind tid iso639 iso3166 now
      resp) = ([], ((kind, tid, langTag iso639 iso3166), now, []) :: cache,
        true) := by
    unfold tmdbSimilar
    rw [if_neg hkey]
    dsimp only
    rw [hcold]
    dsimp only
    cases resp with
    | exn => simp
    | http st results =>
      unfold SimilarFetch.failed at hfail
      simp [if_neg hfail]
  refine ⟨by rw [hout], by rw [hout], by rw [hout]; simp [List.lookup], ?_⟩
  intro enrich2 now2 resp2 httl
  rw [hout]
  unfold tmdbSimilar
  rw [if_neg hkey]
  dsimp only
  simp [List.lookup, httl]

/-- Witness for C10: a 500 response on a cold cache, then a hit one
second later. -/
theorem tmdbSimilar_negative_cache_witness :
    (tmdbSimilar "key" [] id "movie" 1 "en" none 0 (.http 500 none)).1 =
        [] ∧
      (tmdbSimilar "key"
          (tmdbSimilar "key" [] id "movie" 1 "en" none 0
            (.http 500 none)).2.1 id "movie" 1 "en" none 1
          (.http 200 none)) =
        ([], (tmdbSimilar "key" [] id "movie" 1 "en" none 0
          (.http 500 none)).2.1, false) := by
  have h := tmdbSimilar_negative_cache "key" [] id "movie" 1 "en" none 0
    (.http 500 none) (by decide) (by decide) (by decide)
  exact ⟨h.1, h.2.2.2 id 1 (.http 200 none) (by norm_num [similarTtl])⟩

/-- Claim C7 counterexample:.  The claim says any Provider error
short-circuits the remainder of the task.  In the code only the base/TV
fetch does: here a task needing videos and cast hits a failed videos
fetch (`o.videos = none`, i.e. exception, non-200 or empty body), yet
the cast fetch still runs, cast rows are replaced and the task still
commits — the remainder was not short-circuited. -/
theorem runBackfillTask_short_circuit_counterexample :
    (runBackfillTask false false "movie"
        (some ⟨"en", false, false, false, true, true, false⟩)
        ⟨none, none, none, none, none, some 5, none⟩).videosUpserted =
        false ∧
      (runBackfillTask false false "movie"
          (some ⟨"en", false, false, false, true, true, false⟩)
          ⟨none, none, none, none, none, some 5, none⟩).castReplaced =
        true ∧
      (runBackfillTask false false "movie"
          (some ⟨"en", false, false, false, true, true, false⟩)
          ⟨none, none, none, none, none, some 5, none⟩).committed =
        true := by
  refine ⟨rfl, rfl, rfl⟩

lemma afterBaseSteps_spec (m : MissParts) (o : TaskOracle)
    (e : TaskEffects) (hl : e.logosUpserted = false)
    (hv : e.videosUpserted = false) (hc : e.castReplaced = false)
    (ht : e.translationsUpserted = false) :
    (afterBaseSteps m o e).committed = true ∧
    (afterBaseSteps m o e).logosUpserted =
      (m.needLogos && (o.logos1.isSome || o.logos2.isSome)) ∧
    (afterBaseSteps m o e).videosUpserted =
      (m.needVideos && (o.videos.getD []).any id) ∧
    (afterBaseSteps m o e).castReplaced = (m.needCast && o.cast.isSome) ∧
    (afterBaseSteps m o e).translationsUpserted =
      (m.needTranslations && o.translations.isSome) := by
  unfold afterBaseSteps
  cases hL : o.logos1 <;> cases hV : o.videos <;>
    split_ifs <;> simp_all

/-- Claim C7: (amended).  In every backfill worker task: a failed base (or
seasons) fetch aborts the whole task before any upsert and before the
commit; once past the base step, a failed logos/videos/cast/translations
fetch skips only its own part's upsert — each later part's effect
depends only on its own need-flag and response, and the task still
commits; no fetch is retried (each oracle entry is consumed at most
once); and the `finally` block always removes the key from `inflight`
while leaving `recent` untouched, so the recency suppression from
submission time stands for `BACKFILL_TTL`. -/
theorem runBackfillTask_failure_semantics (hs he : Bool)
    (mediaType : String) (m : MissParts) (o : TaskOracle)
    (st : BackfillState) (k : BackfillKey) :
    (runBackfillTask hs he mediaType none o = {}) ∧
    ((m.needBase = true ∨ (mediaType = "tv" ∧ m.needTv = true)) →
      o.base = none →
      runBackfillTask hs he mediaType (some m) o = {}) ∧
    ((m.needBase = false ∧ (mediaType = "tv" → m.needTv = false)) ∨
        o.base.isSome = true →
      ((runBackfillTask hs he mediaType (some m) o).committed = true ∧
        (runBackfillTask hs he mediaType (some m) o).logosUpserted =
          (m.needLogos && (o.logos1.isSome || o.logos2.isSome)) ∧
        (runBackfillTask hs he mediaType (some m) o).videosUpserted =
          (m.needVideos && (o.videos.getD []).any id) ∧
        (runBackfillTask hs he mediaType (some m) o).castReplaced =
          (m.needCast && o.cast.isSome) ∧
        (runBackfillTask hs he mediaType (some m) o).translationsUpserted =
          (m.needTranslations && o.translations.isSome))) ∧
    ((finalizeBackfillTask st k).recent = st.recent ∧
      k ∉ (finalizeBackfillTask st k).inflight) := by
  refine ⟨rfl, ?_, ?_, ?_⟩
  · intro hneed hbase
    simp only [runBackfillTask]
    have hcond : (m.needBase || (mediaType = "tv" && m.needTv)) = true := by
      rcases hneed with h | ⟨h1, h2⟩
      · simp [h]
      · simp [h1, h2]
    rw [if_pos hcond, hbase]
  · intro hpast
    simp only [runBackfillTask]
    by_cases hcond : (m.needBase || (mediaType = "tv" && m.needTv)) = true
    · rw [if_pos hcond]
      rcases hpast with ⟨h1, h2⟩ | hbase
      · exfalso
        by_cases htv : mediaType = "tv"
        · simp [h1, h2 htv, htv] at hcond
        · simp [h1, htv] at hcond
      · obtain ⟨data, hdata⟩ := Option.isSome_iff_exists.mp hbase
        rw [hdata]
        dsimp only
        split_ifs with htvtv
        · exact afterBaseSteps_spec m o _ rfl rfl rfl rfl
        · exact afterBaseSteps_spec m o _ rfl rfl rfl rfl
    · rw [if_neg hcond]
      exact afterBaseSteps_spec m o {} rfl rfl rfl rfl
  · exact ⟨rfl, by
      intro hmem
      have := List.of_mem_filter hmem
      simp at this⟩

/-- Witness for C7 (amended), combining a base-fetch failure (whole task
aborted) with a videos-fetch failure that leaves cast and commit
untouched. -/
theorem runBackfillTask_failure_semantics_witness :
    runBackfillTask false false "movie"
        (some ⟨"en", true, false, false, false, false, false⟩)
        ⟨none, none, none, none, none, none, none⟩ = {} ∧
      (runBackfillTask false false "movie"
          (some ⟨"en", false, false, false, true, true, false⟩)
          ⟨none, none, none, none, none, some 5, none⟩).committed = true := by
  have h1 := (runBackfillTask_failure_semantics false false "movie"
    ⟨"en", true, false, false, false, false, false⟩
    ⟨none, none, none, none, none, none, none⟩ ⟨[], []⟩
    ("movie", 1, "en", 0)).2.1 (Or.inl rfl) rfl
  have h2 := ((runBackfillTask_failure_semantics false false "movie"
    ⟨"en", false, false, false, true, true, false⟩
    ⟨none, none, none, none, none, some 5, none⟩ ⟨[], []⟩
    ("movie", 1, "en", 0)).2.2.1 (Or.inl ⟨rfl, fun h => by simp at h⟩)).1
  exact ⟨h1, h2⟩

/-! ## Dict lemmas for the card-shape claim -/

lemma lookup_isSome_of_mem_dkeys (c : Card) (k : String)
    (h : k ∈ dkeys c) : (c.lookup k).isSome := by
  induction c with
  | nil => simp [dkeys] at h
  | cons p tl ih =>
    simp only [dkeys, List.map_cons, List.mem_cons] at h
    cases hbk : (k == p.1) with
    | true => simp [List.lookup, hbk]
    | false =>
      simp only [List.lookup, hbk]
      exact ih (h.resolve_left (by simpa using hbk))

lemma mem_dkeys_of_lookup_isSome (c : Card) (k : String)
    (h : (c.lookup k).isSome) : k ∈ dkeys c := by
  induction c with
  | nil => simp [List.lookup] at h
  | cons p tl ih =>
    simp only [dkeys, List.map_cons, List.mem_cons]
    cases hbk : (k == p.1) with
    | true => exact Or.inl (by simpa using hbk)
    | false =>
      simp only [List.lookup, hbk] at h
      exact Or.inr (ih h)

lemma dkeys_dset_of_mem (c : Card) (k : String) (v : JVal)
    (h : (c.lookup k).isSome) : dkeys (dset c k v) = dkeys c := by
  unfold dset
  rw [if_pos h]
  unfold dkeys
  rw [List.map_map]
  refine List.map_congr_left ?_
  intro p _
  by_cases hp : p.1 = k
  · simp [hp]
  · simp [hp]

lemma lookup_map_dset_self (c : Card) (k : String) (v : JVal)
    (h : (c.lookup k).isSome) :
    List.lookup k (c.map (fun p => if p.1 = k then (k, v) else p)) =
      some v := by
  induction c with
  | nil => simp [List.lookup] at h
  | cons p tl ih =>
    by_cases hp : p.1 = k
    · rw [List.map_cons, if_pos hp]
      simp [List.lookup]
    · have hbk : (k == p.1) = false := by
        simp only [beq_eq_false_iff_ne]
        exact fun he => hp (he ▸ rfl)
      simp only [List.lookup, hbk] at h
      rw [List.map_cons, if_neg hp]
      simp only [List.lookup, hbk]
      exact ih h

lemma lookup_append_single_self (c : Card) (k : String) (v : JVal)
    (h : c.lookup k = none) :
    List.lookup k (c ++ [(k, v)]) = some v := by
  induction c with
  | nil => simp [List.lookup]
  | cons p tl ih =>
    cases hbk : (k == p.1) with
    | true => simp [List.lookup, hbk] at h
    | false =>
      simp only [List.lookup, hbk] at h
      simp only [List.cons_append, List.lookup, hbk]
      exact ih h

lemma dget_dset_self (c : Card) (k : String) (v : JVal) :
    dget (dset c k v) k = some v := by
  unfold dget dset
  by_cases h : (c.lookup k).isSome
  · rw [if_pos h]
    exact lookup_map_dset_self c k v h
  · rw [if_neg h]
    exact lookup_append_single_self c k v
      (Option.not_isSome_iff_eq_none.mp h)

lemma lookup_map_dset_ne (c : Card) (k : String) (v : JVal) (a : String)
    (hne : a ≠ k) :
    List.lookup a (c.map (fun p => if p.1 = k then (k, v) else p)) =
      c.lookup a := by
  induction c with
  | nil => rfl
  | cons p tl ih =>
    by_cases hp : p.1 = k
    · have hbk : (a == p.1) = false := by
        simp only [beq_eq_false_iff_ne]
        exact fun he => hne (he.trans hp)
      have hbk2 : (a == k) = false := by
        simp only [beq_eq_false_iff_ne]
        exact hne
      rw [List.map_cons, if_pos hp]
      simp only [List.lookup, hbk, hbk2]
      exact ih
    · rw [List.map_cons, if_neg hp]
      simp only [List.lookup]
      cases hbk : (a == p.1) with
      | true => rfl
      | false => exact ih

lemma lookup_append_single_ne (c : Card) (k : String) (v : JVal)
    (a : String) (hne : a ≠ k) :
    List.lookup a (c ++ [(k, v)]) = c.lookup a := by
  induction c with
  | nil =>
    have hbk : (a == k) = false := by
      simp only [beq_eq_false_iff_ne]
      exact hne
    simp [List.lookup, hbk]
  | cons p tl ih =>
    simp only [List.cons_append, List.lookup]
    cases hbk : (a == p.1) with
    | true => rfl
    | false => exact ih

lemma dget_dset_ne (c : Card) (k : String) (v : JVal) (a : String)
    (hne : a ≠ k) : dget (dset c k v) a = dget c a := by
  unfold dget dset
  by_cases h : (c.lookup k).isSome
  · rw [if_pos h]
    exact lookup_map_dset_ne c k v a hne
  · rw [if_neg h]
    exact lookup_append_single_ne c k v a hne

lemma mem_dkeys_dset (c : Card) (k : String) (v : JVal) (a : String) :
    a ∈ dkeys (dset c k v) ↔ a ∈ dkeys c ∨ a = k := by
  by_cases h : (c.lookup k).isSome
  · rw [dkeys_dset_of_mem c k v h]
    constructor
    · exact Or.inl
    · intro ha
      rcases ha with ha | ha
      · exact ha
      · subst ha
        exact mem_dkeys_of_lookup_isSome c a h
  · unfold dset
    rw [if_neg h]
    unfold dkeys
    simp

/-- Keys-preserving single update: assigning an already-present key of a
full card keeps the key list equal to `cardKeys9`. -/
lemma dkeys_dset_eq (c : Card) (k : String) (v : JVal)
    (hk : k ∈ cardKeys9) (h : dkeys c = cardKeys9) :
    dkeys (dset c k v) = cardKeys9 := by
  rw [dkeys_dset_of_mem c k v
    (lookup_isSome_of_mem_dkeys c k (h ▸ hk))]
  exact h

lemma enrichApplyRow_dkeys (hT : Bool) (tT : List TransRow)
    (mediaType : String) (tid : ℤ) (r : EnrichRow) (card : Card)
    (i : String) (reg : Option String) (h : dkeys card = cardKeys9) :
    dkeys (enrichApplyRow hT tT mediaType tid r card i reg) = cardKeys9 := by
  unfold enrichApplyRow
  dsimp only
  split_ifs <;>
    (repeat
      first
      | exact h
      | refine dkeys_dset_eq _ _ _ (by decide) ?_)

lemma enrichFinal_dkeys (card : Card) (h : dkeys card = cardKeys9) :
    dkeys (enrichFinal card) = cardKeys9 := by
  unfold enrichFinal
  dsimp only
  split_ifs <;>
    (repeat
      first
      | exact h
      | refine dkeys_dset_eq _ _ _ (by decide) ?_)

lemma enrichCard_dkeys (hT : Bool) (tT : List TransRow)
    (mT sT : List (ℤ × EnrichRow)) (card : Card) (i : String)
    (reg : Option String) (h : dkeys card = cardKeys9) :
    dkeys (enrichCard hT tT mT sT card i reg) = cardKeys9 := by
  unfold enrichCard
  dsimp only
  split_ifs with hguard hkind
  · exact h
  · rcases List.lookup (jToInt (dget card "id")) mT with _ | r
    · exact enrichFinal_dkeys card h
    · exact enrichFinal_dkeys _ (enrichApplyRow_dkeys hT tT _ _ r card i reg h)
  · rcases List.lookup (jToInt (dget card "id")) sT with _ | r
    · exact enrichFinal_dkeys card h
    · exact enrichFinal_dkeys _ (enrichApplyRow_dkeys hT tT _ _ r card i reg h)

lemma enrichApplyRow_dget_ne (hT : Bool) (tT : List TransRow)
    (mediaType : String) (tid : ℤ) (r : EnrichRow) (card : Card)
    (i : String) (reg : Option String) (a : String) (h1 : a ≠ "name")
    (h2 : a ≠ "description") (h3 : a ≠ "logo") (h4 : a ≠ "backdrop") :
    dget (enrichApplyRow hT tT mediaType tid r card i reg) a =
      dget card a := by
  unfold enrichApplyRow
  dsimp only
  split_ifs <;>
    (repeat rw [dget_dset_ne _ _ _ _ (by assumption)])

lemma enrichFinal_dget_ne (card : Card) (a : String) (h3 : a ≠ "logo")
    (h4 : a ≠ "backdrop") : dget (enrichFinal card) a = dget card a := by
  unfold enrichFinal
  dsimp only
  split_ifs <;>
    ((repeat rw [dget_dset_ne _ _ _ _ (by assumption)]); try rfl)

lemma enrichCard_dget_kind (hT : Bool) (tT : List TransRow)
    (mT sT : List (ℤ × EnrichRow)) (card : Card) (i : String)
    (reg : Option String) :
    dget (enrichCard hT tT mT sT card i reg) "kind" = dget card "kind" ∧
    dget (enrichCard hT tT mT sT card i reg) "id" = dget card "id" := by
  have hrow : ∀ c : Card,
      dget (enrichFinal c) "kind" = dget c "kind" ∧
      dget (enrichFinal c) "id" = dget c "id" := fun c =>
    ⟨enrichFinal_dget_ne c "kind" (by decide) (by decide),
      enrichFinal_dget_ne c "id" (by decide) (by decide)⟩
  have happ : ∀ (mt : String) (tid : ℤ) (r : EnrichRow),
      dget (enrichApplyRow hT tT mt tid r card i reg) "kind" =
        dget card "kind" ∧
      dget (enrichApplyRow hT tT mt tid r card i reg) "id" =
        dget card "id" := fun mt tid r =>
    ⟨enrichApplyRow_dget_ne hT tT mt tid r card i reg "kind" (by decide)
        (by decide) (by decide) (by decide),
      enrichApplyRow_dget_ne hT tT mt tid r card i reg "id" (by decide)
        (by decide) (by decide) (by decide)⟩
  unfold enrichCard
  dsimp only
  split_ifs with hguard hkind
  · exact ⟨rfl, rfl⟩
  · rcases List.lookup (jToInt (dget card "id")) mT with _ | r
    · exact hrow card
    · exact ⟨(hrow _).1.trans (happ _ _ r).1, (hrow _).2.trans (happ _ _ r).2⟩
  · rcases List.lookup (jToInt (dget card "id")) sT with _ | r
    · exact hrow card
    · exact ⟨(hrow _).1.trans (happ _ _ r).1, (hrow _).2.trans (happ _ _ r).2⟩

lemma enrichApplyRow_desc (hT : Bool) (tT : List TransRow)
    (mediaType : String) (tid : ℤ) (r : EnrichRow) (card : Card)
    (i : String) (reg : Option String)
    (hdesc : ∃ s, dget card "description" = some (jOptStr (truncDesc s))) :
    ∃ s, dget (enrichApplyRow hT tT mediaType tid r card i reg)
      "description" = some (jOptStr (truncDesc s)) := by
  unfold enrichApplyRow
  dsimp only
  split_ifs <;>
    first
    | exact ⟨_, by
        repeat rw [dget_dset_ne _ _ _ _ (by decide)]
        exact dget_dset_self _ _ _⟩
    | (obtain ⟨s, hs⟩ := hdesc
       refine ⟨s, ?_⟩
       repeat rw [dget_dset_ne _ _ _ _ (by decide)]
       exact hs)

lemma enrichCard_desc (hT : Bool) (tT : List TransRow)
    (mT sT : List (ℤ × EnrichRow)) (card : Card) (i : String)
    (reg : Option String)
    (hdesc : ∃ s, dget card "description" = some (jOptStr (truncDesc s))) :
    ∃ s, dget (enrichCard hT tT mT sT card i reg) "description" =
      some (jOptStr (truncDesc s)) := by
  unfold enrichCard
  dsimp only
  split_ifs with hguard hkind
  · exact hdesc
  · rcases List.lookup (jToInt (dget card "id")) mT with _ | r
    · rw [enrichFinal_dget_ne _ "description" (by decide) (by decide)]
      exact hdesc
    · rw [enrichFinal_dget_ne _ "description" (by decide) (by decide)]
      exact enrichApplyRow_desc hT tT _ _ r card i reg hdesc
  · rcases List.lookup (jToInt (dget card "id")) sT with _ | r
    · rw [enrichFinal_dget_ne _ "description" (by decide) (by decide)]
      exact hdesc
    · rw [enrichFinal_dget_ne _ "description" (by decide) (by decide)]
      exact enrichApplyRow_desc hT tT _ _ r card i reg hdesc

/-- Claim C8: (card shape uniformity).  Every card built by
`_card_from_row` (slider fallback, top10, trending fallback, series_on,
top_rated) and by the home trending `tmdb_card` has exactly the nine
keys `id, kind, name, description, year, rating, poster, logo,
backdrop`; browse items, home genre-shelf items and search results have
the same keys without the optional `description`; `kind` is always
`"movie"` or `"series"` (for the UNION rows, whose `kind` column is one
of the two literals); every `description` value present is the
locale-picked overview put through the 240-character ellipsis
truncation; and the `_enrich_card` pass preserves the key set, the `id`
and `kind` values, and keeps `description` in the truncated form. -/
theorem card_shape_uniform :
    (∀ (hT : Bool) (tT : List TransRow) (hasCon : Bool) (mt : String)
        (r : TitleRow) (i : String) (reg : Option String) (wd : Bool),
      dkeys (cardFromRow hT tT hasCon mt r i reg wd) = cardKeys9 ∧
      (dget (cardFromRow hT tT hasCon mt r i reg wd) "kind" =
          some (.str "movie") ∨
        dget (cardFromRow hT tT hasCon mt r i reg wd) "kind" =
          some (.str "series")) ∧
      dget (cardFromRow hT tT true mt r i reg true) "description" =
        some (jOptStr (truncDesc (pyStrip (pyOrStr
          (translated hT tT mt r.id i reg).2 (pyOrStr r.overview "")))))) ∧
    (∀ (it : TrendingItem) (c : Card), tmdbCard it = some c →
      dkeys c = cardKeys9 ∧
      (dget c "kind" = some (.str "movie") ∨
        dget c "kind" = some (.str "series")) ∧
      dget c "description" =
        some (jOptStr (truncDesc (pyStrip (it.overview.getD ""))))) ∧
    (∀ (hT : Bool) (tT : List TransRow) (i : String) (reg : Option String)
        (r : UnionRow),
      dkeys (browseItem hT tT i reg r) = cardKeys8 ∧
      (r.kind = "movie" ∨ r.kind = "series" →
        (dget (browseItem hT tT i reg r) "kind" = some (.str "movie") ∨
          dget (browseItem hT tT i reg r) "kind" =
            some (.str "series")))) ∧
    (∀ (i : String) (r : UnionRow),
      dkeys (searchItem i r) = cardKeys8 ∧
      (r.kind = "movie" ∨ r.kind = "series" →
        (dget (searchItem i r) "kind" = some (.str "movie") ∨
          dget (searchItem i r) "kind" = some (.str "series")))) ∧
    (∀ (hT : Bool) (tT : List TransRow) (mT sT : List (ℤ × EnrichRow))
        (card : Card) (i : String) (reg : Option String),
      (dkeys card = cardKeys9 →
        dkeys (enrichCard hT tT mT sT card i reg) = cardKeys9) ∧
      dget (enrichCard hT tT mT sT card i reg) "kind" = dget card "kind" ∧
      dget (enrichCard hT tT mT sT card i reg) "id" = dget card "id" ∧
      ((∃ s, dget card "description" = some (jOptStr (truncDesc s))) →
        ∃ s, dget (enrichCard hT tT mT sT card i reg) "description" =
          some (jOptStr (truncDesc s)))) := by
  refine ⟨?_, ?_, ?_, ?_, ?_⟩
  · intro hT tT hasCon mt r i reg wd
    refine ⟨rfl, ?_, ?_⟩
    · by_cases h : mt = "movie" <;> simp [cardFromRow, dget, List.lookup, h]
    · simp [cardFromRow, dget, List.lookup]
  · intro it c h
    unfold tmdbCard at h
    dsimp only at h
    split_ifs at h with h1 h2
    · injection h with h
      subst h
      exact ⟨rfl, Or.inl (by simp [dget, List.lookup]),
        by simp [dget, List.lookup]⟩
    · injection h with h
      subst h
      exact ⟨rfl, Or.inr (by simp [dget, List.lookup]),
        by simp [dget, List.lookup]⟩
  · intro hT tT i reg r
    refine ⟨rfl, ?_⟩
    intro hk
    rcases hk with hk | hk <;>
      simp [browseItem, dget, List.lookup, hk]
  · intro i r
    refine ⟨rfl, ?_⟩
    intro hk
    rcases hk with hk | hk <;>
      simp [searchItem, dget, List.lookup, hk]
  · intro hT tT mT sT card i reg
    exact ⟨enrichCard_dkeys hT tT mT sT card i reg,
      (enrichCard_dget_kind hT tT mT sT card i reg).1,
      (enrichCard_dget_kind hT tT mT sT card i reg).2,
      enrichCard_desc hT tT mT sT card i reg⟩

/-- Witness for C8 at a concrete trending item and its enrichment. -/
theorem card_shape_uniform_witness :
    (dkeys (cardFromRow true [] true "movie"
        ⟨1, some "T", some "O", some "2020-01-01", some 7, some "p",
          some "b", none⟩ "en" none false) = cardKeys9) ∧
    (∀ c, tmdbCard ⟨some "movie", some 3, some "T", none, some "O",
        some "2020-01-01", none, some 7, some "p", some "b"⟩ = some c →
      dkeys c = cardKeys9) := by
  refine ⟨(card_shape_uniform.1 true [] true "movie"
    ⟨1, some "T", some "O", some "2020-01-01", some 7, some "p", some "b",
      none⟩ "en" none false).1, ?_⟩
  intro c hc
  exact (card_shape_uniform.2.1 ⟨some "movie", some 3, some "T", none,
    some "O", some "2020-01-01", none, some 7, some "p", some "b"⟩ c hc).1

end CatalogAPI
